import Mathlib

/-!
Shallow embedding of the two scripts of the `pulp_demos` repository:

* `demo.py` — parses a CSV file (first row: a YouTube watch URL; every later
  row: `title, nick, M:SS[, version]`) into `Demo` records and renders
  announcement text.
* `release_announce.py` — groups tracker issues by project, sorts the project
  names, joins them in natural language, and fills three announcement
  templates.

Python list indexing, tuple unpacking and attribute access that can raise are
modelled with `Except PyError`; everything else is a direct translation of
the corresponding Python expression.
-/

namespace PulpDemos

/-- The Python exception classes the modelled code can raise. -/
inductive PyError where
  | indexError
  | valueError
  | attributeError
deriving DecidableEq, Repr

/-! ## demo.py -/

/-- Python class `Demo` of `demo.py`: `title`, `nick`, `min`, `sec` (kept as the
strings produced by `row[2].split(':')`, exactly as the Python code does) and
the optional `version` from the fourth CSV column. -/
structure Demo where
  title : String
  nick : String
  min : String
  sec : String
  version : Option String
deriving DecidableEq, Repr

/-- Property `time`: `'{min}m{sec}s'.format(min=self.min, sec=self.sec)`. -/
def Demo.time (d : Demo) : String :=
  d.min ++ "m" ++ d.sec ++ "s"

/-- Property `version_str`: empty when `version is None`, else `' ({version})'`. -/
def Demo.version_str (d : Demo) : String :=
  match d.version with
  | none => ""
  | some v => " (" ++ v ++ ")"

/-- Python `str.split(c)` for a one-character separator, on the character
list of the string: splits at every occurrence of `c`, keeping empty pieces,
and always returns at least one piece (`''.split(c) == ['']`). -/
def splitChar (c : Char) : List Char → List (List Char)
  | [] => [[]]
  | a :: as =>
    match splitChar c as with
    | r :: rs => if a = c then [] :: r :: rs else (a :: r) :: rs
    | [] => [[]]

/-- Python `s.split(c)` as a function on `String`. -/
def pySplit (s : String) (c : Char) : List String :=
  (splitChar c s.data).map String.mk

/-- The leftmost occurrence of the (non-empty) separator `sep` in a character
list: `some (before, after)` with the characters before the occurrence and
the characters after it, or `none` when `sep` does not occur. -/
def findOcc (sep : List Char) : List Char → Option (List Char × List Char)
  | [] => none
  | a :: as =>
    if sep.isPrefixOf (a :: as) then some ([], List.drop sep.length (a :: as))
    else
      match findOcc sep as with
      | some (b, rest) => some (a :: b, rest)
      | none => none

/-- Python `str.split(sep)` for a non-empty separator: repeatedly cut at the
leftmost occurrence. The fuel is structural bookkeeping only; every cut
consumes at least one character, so `l.length + 1` steps always finish. -/
def splitSeqFuel (sep : List Char) : Nat → List Char → List (List Char)
  | 0, l => [l]
  | fuel + 1, l =>
    match findOcc sep l with
    | none => [l]
    | some (before, after) => before :: splitSeqFuel sep fuel after

/-- Python `s.split(sep)` for a non-empty string separator, as a function on
`String`. -/
def pySplitStr (s sep : String) : List String :=
  (splitSeqFuel sep.data (s.data.length + 1) s.data).map String.mk

/-- The body of the `for row in spamreader` loop of `parse_data` for one data
row: `row[2]` raises `IndexError` when the row has fewer than 3 columns,
`min, sec = row[2].split(':')` raises `ValueError` unless the split has
exactly two pieces, `row[3]` is caught into an absent `version`, and the
`Demo` is built from `row[0]`, `row[1]`, `min`, `sec`. -/
def parseRow (row : List String) : Except PyError Demo :=
  match row with
  | title :: nick :: dur :: rest =>
    match pySplit dur ':' with
    | [m, s] => .ok ⟨title, nick, m, s, rest.head?⟩
    | _ => .error .valueError
  | _ => .error .indexError

/-- The data-row loop of `parse_data`: rows are processed in file order, the
first raising row aborts the run, and each good row appends one `Demo`. -/
def parseRows : List (List String) → Except PyError (List Demo)
  | [] => .ok []
  | r :: rs =>
    match parseRow r with
    | .error e => .error e
    | .ok d =>
      match parseRows rs with
      | .error e => .error e
      | .ok ds => .ok (d :: ds)

/-- Function `parse_data` of `demo.py`, on the row list the `csv.reader` yields: the
first row's first column is the YouTube link (no rows at all leaves
`youtube_link` as `None`, so `youtube_link.split` raises
`AttributeError`; an empty first row makes `row[0]` raise `IndexError`),
every later row goes through the loop body, and finally
`youtube_link.split('?v=')[1]` extracts the slug (raising `IndexError` when
the link has no `?v=`). -/
def parse_data (rows : List (List String)) : Except PyError (String × List Demo) :=
  match rows with
  | [] => .error .attributeError
  | first :: dataRows =>
    match first.head? with
    | none => .error .indexError
    | some link =>
      match parseRows dataRows with
      | .error e => .error e
      | .ok demos =>
        match (pySplitStr link "?v=")[1]? with
        | none => .error .indexError
        | some slug => .ok (slug, demos)

/-! ## release_announce.py -/

/-- Python `version.count('.')`. -/
def countChar (s : String) (c : Char) : Nat :=
  s.data.count c

/-- Function `x_y_z_version`: raises `ValueError` unless the version has exactly two
dots (`version.count('.') is not 2` — for CPython's cached small integers
this is the same test as `!= 2`), otherwise returns the version unchanged.
Used as the argparse `type=` for `--version`, so it runs while the arguments
are parsed, before any announcement work. -/
def x_y_z_version (version : String) : Except PyError String :=
  if countChar version '.' ≠ 2 then .error .valueError else .ok version

/-- Python `s.endswith(suffix)`: the characters of `suffix` are a suffix of
the characters of `s`. -/
def pyEndsWith (s suffix : String) : Bool :=
  suffix.data.isSuffixOf s.data

/-- Lines 125–128 of `parse_args`: `'new features'` when
`args.version.endswith('0')`, else `'bugfixes'`. -/
def features_or_fixes (version : String) : String :=
  if pyEndsWith version "0" then "new features" else "bugfixes"

/-- The three wording fields `parse_args` derives from `--beta` / `--rc`. -/
structure ReleaseLabels where
  beta_or_stable : String
  upgrade_or_test : String
  beta_name_number : String
deriving DecidableEq, Repr

/-- Lines 130–141 of `parse_args`: the `if args.beta is None and args.rc is None
/ elif args.beta is not None / elif args.rc is not None` chain. A supplied
`--beta` takes the first `elif`, so it wins over a simultaneously supplied
`--rc`; an `--rc` alone also sets `beta_or_stable` to `'beta'`. -/
def releaseLabels : Option Int → Option Int → ReleaseLabels
  | none, none => ⟨"stable", "Upgrading", ""⟩
  | some b, _ => ⟨"beta", "Beta testing", " Beta " ++ toString b⟩
  | none, some r => ⟨"beta", "Release Candidate testing", " Release Candidate " ++ toString r⟩

/-- One Redmine issue, with the fields `print_announcements` reads:
`issue.id`, `issue.subject`, `issue.project.name`, `issue.url`. -/
structure Issue where
  id : Nat
  subject : String
  project : String
  url : String
deriving DecidableEq, Repr

/-- The defaultdict `issues_by_project` of `print_announcements`, as the map
from a project name to the list the loop built for it: the loop walks the
fetched issues in order and appends each to the list of its project name. -/
def issues_by_project (issues : List Issue) : String → List Issue :=
  issues.foldl (fun m i => fun p => if p = i.project then m p ++ [i] else m p)
    (fun _ => [])

/-- The key list of the `issues_by_project` dict, in insertion order: a
project name is added the first time an issue of that project is seen. -/
def dictKeys (issues : List Issue) : List String :=
  issues.foldl (fun ks i => if i.project ∈ ks then ks else ks ++ [i.project]) []

/-- Line 154, `projects = sorted(issues_by_project.keys())`: the distinct project
names in lexicographically ascending order. -/
def projectsSorted (issues : List Issue) : List String :=
  List.insertionSort (· ≤ ·) (dictKeys issues)

/-- Line 160: `', '.join(projects[:-1]) + ', and {last_one}'.format(last_one=projects[-1])`.
On an empty list `projects[-1]` raises `IndexError`; there is no guard. -/
def project_str (projects : List String) : Except PyError String :=
  match projects.getLast? with
  | none => .error .indexError
  | some last => .ok (String.intercalate ", " projects.dropLast ++ ", and " ++ last)

/-- The natural-language project join as `print_announcements` computes it
from the fetched issues: sort the distinct project names, then join. -/
def announce_project_str (issues : List Issue) : Except PyError String :=
  project_str (projectsSorted issues)

/-- The characters before the last occurrence of `c`, or `none` when `c`
does not occur. -/
def rpartBefore (c : Char) : List Char → Option (List Char)
  | [] => none
  | a :: as =>
    match rpartBefore c as with
    | some r => some (a :: r)
    | none => if a = c then some [] else none

/-- Line 161, `args.version.rpartition('.')[0]`: everything before the last dot, or the
empty string when there is no dot. -/
def x_y_version (version : String) : String :=
  match rpartBefore '.' version.data with
  | none => ""
  | some l => String.mk l

/-- The repository URL of `EMAIL_TEMPLATE` (line 31):
`https://repos.fedorapeople.org/repos/pulp/pulp/{beta_or_stable}/{x_y_version}/`. -/
def emailRepoPath (labels : ReleaseLabels) (xy : String) : String :=
  "https://repos.fedorapeople.org/repos/pulp/pulp/" ++ labels.beta_or_stable
    ++ "/" ++ xy ++ "/"

/-- The repository name of `EMAIL_TEMPLATE` (line 42): `pulp-{beta_or_stable}`. -/
def emailRepoName (labels : ReleaseLabels) : String :=
  "pulp-" ++ labels.beta_or_stable

/-- The first repository URL of `BLOG_POST_TEMPLATE` (line 69):
`https://repos.fedorapeople.org/pulp/pulp/{beta_or_stable}/2/`. -/
def blogRepoPath2 (labels : ReleaseLabels) : String :=
  "https://repos.fedorapeople.org/pulp/pulp/" ++ labels.beta_or_stable ++ "/2/"

/-- The second repository URL of `BLOG_POST_TEMPLATE` (line 70):
`https://repos.fedorapeople.org/pulp/pulp/{beta_or_stable}/latest/`. -/
def blogRepoPathLatest (labels : ReleaseLabels) : String :=
  "https://repos.fedorapeople.org/pulp/pulp/" ++ labels.beta_or_stable ++ "/latest/"

/-- The repository name of `BLOG_POST_TEMPLATE` (line 81):
`pulp-2-{beta_or_stable}`. -/
def blogRepoName2 (labels : ReleaseLabels) : String :=
  "pulp-2-" ++ labels.beta_or_stable

/-! ## Supporting lemmas about the grouping loop -/

theorem foldl_group_eq_filter (l : List Issue) (p : String) :
    ∀ m : String → List Issue,
      (l.foldl (fun m i => fun q => if q = i.project then m q ++ [i] else m q) m) p
        = m p ++ l.filter (fun i => i.project == p) := by
  induction l with
  | nil => intro m; simp
  | cons i l ih =>
    intro m
    simp only [List.foldl_cons]
    rw [ih]
    by_cases h : p = i.project
    · simp [h, List.filter_cons]
    · have h' : (i.project == p) = false := by simp [Ne.symm h]
      simp [h, List.filter_cons, h']

theorem issues_by_project_eq_filter (issues : List Issue) (p : String) :
    issues_by_project issues p = issues.filter (fun i => i.project == p) := by
  simpa using foldl_group_eq_filter issues p (fun _ => [])

theorem mem_foldl_keys (l : List Issue) :
    ∀ (ks : List String) (a : String),
      a ∈ l.foldl (fun ks i => if i.project ∈ ks then ks else ks ++ [i.project]) ks
        ↔ a ∈ ks ∨ a ∈ l.map Issue.project := by
  induction l with
  | nil => simp
  | cons i l ih =>
    intro ks a
    simp only [List.foldl_cons]
    by_cases h : i.project ∈ ks
    · rw [if_pos h, ih]
      simp only [List.map_cons, List.mem_cons]
      constructor
      · rintro (hk | hm)
        · exact Or.inl hk
        · exact Or.inr (Or.inr hm)
      · rintro (hk | heq | hm)
        · exact Or.inl hk
        · exact Or.inl (heq ▸ h)
        · exact Or.inr hm
    · rw [if_neg h, ih]
      simp [or_assoc]

theorem nodup_foldl_keys (l : List Issue) :
    ∀ ks : List String, ks.Nodup →
      (l.foldl (fun ks i => if i.project ∈ ks then ks else ks ++ [i.project]) ks).Nodup := by
  induction l with
  | nil => intro ks hks; simpa using hks
  | cons i l ih =>
    intro ks hks
    simp only [List.foldl_cons]
    by_cases h : i.project ∈ ks
    · rw [if_pos h]; exact ih ks hks
    · rw [if_neg h]
      exact ih _ (by simp [List.nodup_append, hks, h])

theorem dictKeys_nodup (issues : List Issue) : (dictKeys issues).Nodup :=
  nodup_foldl_keys issues [] (by simp)

theorem mem_dictKeys (issues : List Issue) (a : String) :
    a ∈ dictKeys issues ↔ a ∈ issues.map Issue.project := by
  simpa using mem_foldl_keys issues [] a

theorem dictKeys_perm {l₁ l₂ : List Issue} (h : l₁.Perm l₂) :
    (dictKeys l₁).Perm (dictKeys l₂) :=
  (List.perm_ext_iff_of_nodup (dictKeys_nodup l₁) (dictKeys_nodup l₂)).mpr fun a => by
    rw [mem_dictKeys, mem_dictKeys]
    exact (h.map Issue.project).mem_iff

theorem projectsSorted_sorted (issues : List Issue) :
    List.Sorted (· ≤ ·) (projectsSorted issues) :=
  List.sorted_insertionSort _ _

theorem projectsSorted_perm_eq {l₁ l₂ : List Issue} (h : l₁.Perm l₂) :
    projectsSorted l₁ = projectsSorted l₂ :=
  List.eq_of_perm_of_sorted
    ((List.perm_insertionSort _ _).trans
      ((dictKeys_perm h).trans (List.perm_insertionSort _ _).symm))
    (projectsSorted_sorted l₁) (projectsSorted_sorted l₂)

/-! ## Claim theorems -/

/-- C1: the natural-language join of the sorted project names joins all but
the last with `", "` and appends `", and "` before the final name; for
`["Alpha", "Zeta"]` it yields `"Alpha, and Zeta"`, and for a single project
the result ends in `"and "` followed by that name. -/
theorem c1_natural_join :
    (∀ (l : List String) (h : l ≠ []),
        project_str l =
          .ok (String.intercalate ", " l.dropLast ++ ", and " ++ l.getLast h)) ∧
    project_str ["Alpha", "Zeta"] = .ok "Alpha, and Zeta" ∧
    ∀ name : String, ∃ pre, project_str [name] = .ok (pre ++ "and " ++ name) := by
  refine ⟨?_, rfl, fun name => ⟨", ", rfl⟩⟩
  intro l h
  unfold project_str
  rw [List.getLast?_eq_getLast l h]

/-- Witness for C1 at the concrete project list `["Alpha", "Beta", "Zeta"]`. -/
theorem c1_natural_join_witness :
    project_str ["Alpha", "Beta", "Zeta"] = .ok "Alpha, Beta, and Zeta" :=
  c1_natural_join.1 ["Alpha", "Beta", "Zeta"] (by decide)

/-- C6: with no fetched issues the sorted project list is empty and the
`", ".join(projects[:-1]) + ", and " + projects[-1]` line fails with
`IndexError`; nothing in the rendering path guards against it. -/
theorem c6_empty_projects_index_error :
    projectsSorted [] = [] ∧
    project_str [] = .error .indexError ∧
    announce_project_str [] = .error .indexError :=
  ⟨rfl, rfl, rfl⟩

/-- C2 (amended): for every non-empty issue list, each issue lands exactly in
the group of its own project name, each group is the fetch-ordered
subsequence of the issues of that project, the enumerated project names are
sorted lexicographically ascending, and the sorted project-name list — though
not the within-group order — is invariant under permutation of the input. -/
theorem c2_grouping_sorted (issues : List Issue) (_hne : issues ≠ []) :
    (∀ i ∈ issues, i ∈ issues_by_project issues i.project ∧
        ∀ q, i ∈ issues_by_project issues q → q = i.project) ∧
    (∀ p, issues_by_project issues p = issues.filter (fun i => i.project == p)) ∧
    List.Sorted (· ≤ ·) (projectsSorted issues) ∧
    ∀ issues₂, issues.Perm issues₂ → projectsSorted issues = projectsSorted issues₂ := by
  refine ⟨?_, issues_by_project_eq_filter issues, projectsSorted_sorted issues,
    fun issues₂ hp => projectsSorted_perm_eq hp⟩
  intro i hi
  constructor
  · rw [issues_by_project_eq_filter]
    simp [List.mem_filter, hi]
  · intro q hq
    rw [issues_by_project_eq_filter] at hq
    have hpq : i.project = q := by simpa using List.of_mem_filter hq
    exact hpq.symm

/-- Witness for C2 at a concrete two-issue list with unsorted project names. -/
theorem c2_grouping_sorted_witness :
    (∀ i ∈ ([⟨1, "s", "Zeta", "u"⟩, ⟨2, "t", "Alpha", "v"⟩] : List Issue),
        i ∈ issues_by_project [⟨1, "s", "Zeta", "u"⟩, ⟨2, "t", "Alpha", "v"⟩] i.project ∧
        ∀ q, i ∈ issues_by_project [⟨1, "s", "Zeta", "u"⟩, ⟨2, "t", "Alpha", "v"⟩] q →
          q = i.project) ∧
    (∀ p, issues_by_project [⟨1, "s", "Zeta", "u"⟩, ⟨2, "t", "Alpha", "v"⟩] p
        = List.filter (fun i => i.project == p) [⟨1, "s", "Zeta", "u"⟩, ⟨2, "t", "Alpha", "v"⟩]) ∧
    List.Sorted (· ≤ ·) (projectsSorted [⟨1, "s", "Zeta", "u"⟩, ⟨2, "t", "Alpha", "v"⟩]) ∧
    ∀ issues₂, List.Perm [⟨1, "s", "Zeta", "u"⟩, ⟨2, "t", "Alpha", "v"⟩] issues₂ →
      projectsSorted [⟨1, "s", "Zeta", "u"⟩, ⟨2, "t", "Alpha", "v"⟩] = projectsSorted issues₂ :=
  c2_grouping_sorted [⟨1, "s", "Zeta", "u"⟩, ⟨2, "t", "Alpha", "v"⟩] (by decide)

/-- Counterexample to C2 as stated: swapping two issues of the same project
permutes the input but changes the group of that project (the within-group
order follows fetch order), so the grouping result is not invariant under
permutation of the input issue list. -/
theorem c2_perm_counterexample :
    ([⟨1, "a", "Pulp", "u1"⟩, ⟨2, "b", "Pulp", "u2"⟩] : List Issue).Perm
        [⟨2, "b", "Pulp", "u2"⟩, ⟨1, "a", "Pulp", "u1"⟩] ∧
    issues_by_project [⟨1, "a", "Pulp", "u1"⟩, ⟨2, "b", "Pulp", "u2"⟩] "Pulp"
      ≠ issues_by_project [⟨2, "b", "Pulp", "u2"⟩, ⟨1, "a", "Pulp", "u1"⟩] "Pulp" :=
  ⟨List.Perm.swap _ _ _, by decide⟩

/-- C3, at the failing input: `features_or_fixes` tests
`version.endswith('0')`, so version `"2.14.10"` — whose final component is
`10`, not zero — still selects `"new features"`, while the single-digit
examples behave as the spec says. -/
theorem c3_endswith_vs_final_component :
    features_or_fixes "2.14.0" = "new features" ∧
    features_or_fixes "2.14.3" = "bugfixes" ∧
    features_or_fixes "2.14.10" = "new features" ∧
    pySplitStr "2.14.10" "." = ["2", "14", "10"] :=
  ⟨rfl, rfl, rfl, rfl⟩

/-- C8: `--version` is accepted exactly when the string contains exactly two
dots; otherwise `x_y_z_version` (the argparse `type=` callback, run during
argument parsing) raises `ValueError`. -/
theorem c8_version_gate (v : String) :
    (x_y_z_version v = .ok v ↔ countChar v '.' = 2) ∧
    (countChar v '.' ≠ 2 → x_y_z_version v = .error .valueError) := by
  constructor
  · by_cases h : countChar v '.' = 2 <;> simp [x_y_z_version, h]
  · intro h; simp [x_y_z_version, h]

/-- Witness for C8: `"2.14.0"` is accepted, `"2.14"` is rejected. -/
theorem c8_version_gate_witness :
    x_y_z_version "2.14.0" = .ok "2.14.0" ∧
    x_y_z_version "2.14" = .error .valueError :=
  ⟨(c8_version_gate "2.14.0").1.mpr (by decide),
    (c8_version_gate "2.14").2 (by decide)⟩

/-- C9: supplying both `--beta` and `--rc` is not rejected; the `elif` chain
tests `args.beta` first, so the Beta wording wins whatever `--rc` holds, and
with neither flag the stable wording with an empty name suffix is chosen. -/
theorem c9_beta_wins_over_rc (b r : Int) :
    releaseLabels (some b) (some r) = ⟨"beta", "Beta testing", " Beta " ++ toString b⟩ ∧
    releaseLabels (some b) (some r) = releaseLabels (some b) none ∧
    releaseLabels none none = ⟨"stable", "Upgrading", ""⟩ :=
  ⟨rfl, rfl, rfl⟩

/-! ## Supporting lemmas about splitting and row parsing -/

theorem splitChar_of_not_mem {c : Char} {l : List Char} (h : c ∉ l) :
    splitChar c l = [l] := by
  induction l with
  | nil => rfl
  | cons a as ih =>
    have ha : ¬a = c := by rintro rfl; exact h (List.mem_cons_self _ _)
    have has : c ∉ as := fun hm => h (List.mem_cons_of_mem _ hm)
    simp [splitChar, ih has, ha]

theorem splitChar_append_sep (c : Char) {a b : List Char} (ha : c ∉ a) (hb : c ∉ b) :
    splitChar c (a ++ c :: b) = [a, b] := by
  induction a with
  | nil => simp [splitChar, splitChar_of_not_mem hb]
  | cons x xs ih =>
    have hx : ¬x = c := by rintro rfl; exact ha (List.mem_cons_self _ _)
    have hxs : c ∉ xs := fun hm => ha (List.mem_cons_of_mem _ hm)
    simp [splitChar, ih hxs, hx]

theorem parseRows_ok (rows : List (List String))
    (hok : ∀ r ∈ rows, ∃ d, parseRow r = .ok d) :
    ∃ demos, parseRows rows = .ok demos ∧ demos.length = rows.length ∧
      ∀ (i : Nat) (h1 : i < demos.length) (h2 : i < rows.length),
        Except.ok (demos.get ⟨i, h1⟩) = parseRow (rows.get ⟨i, h2⟩) := by
  induction rows with
  | nil => exact ⟨[], rfl, rfl, fun i h1 => absurd h1 (by simp)⟩
  | cons r rs ih =>
    obtain ⟨d, hd⟩ := hok r (List.mem_cons_self _ _)
    obtain ⟨ds, hds, hlen, hidx⟩ := ih fun x hx => hok x (List.mem_cons_of_mem _ hx)
    refine ⟨d :: ds, by simp [parseRows, hd, hds], by simp [hlen], ?_⟩
    intro i h1 h2
    cases i with
    | zero => simpa using hd.symm
    | succ j => simpa using hidx j (by simpa using h1) (by simpa using h2)

/-- C4 (amended): a data row makes `parse_data` raise exactly when it has
fewer than 3 columns (`row[2]` raises `IndexError`) or when the duration
does not split on `':'` into exactly two pieces (the two-name unpacking
raises `ValueError`); no integer conversion of the pieces is performed, so
any two-piece duration is accepted. -/
theorem c4_row_error_iff (row : List String) :
    (∃ e, parseRow row = .error e) ↔
      (row.length < 3 ∨
        ∃ t n d rest, row = t :: n :: d :: rest ∧ (pySplit d ':').length ≠ 2) := by
  rcases row with _ | ⟨t, _ | ⟨n, _ | ⟨d, rest⟩⟩⟩
  · simp [parseRow]
  · simp [parseRow]
  · simp [parseRow]
  · rcases hps : pySplit d ':' with _ | ⟨m, _ | ⟨s, _ | ⟨x, xs⟩⟩⟩ <;>
      simp [parseRow, hps] <;>
    exact Or.inr ⟨t, n, d, ⟨⟨rfl, rfl, rfl⟩, by simp [hps]⟩⟩

/-- Modelled from the spec: "convertible to integers" — a string Python's
`int()` accepts, in the simplified form of an optional sign followed by one
or more decimal digits. `parse_data` itself performs no such conversion;
this definition only states the claim. -/
def isIntLiteral (s : String) : Bool :=
  match s.data with
  | '-' :: ds => !ds.isEmpty && ds.all Char.isDigit
  | '+' :: ds => !ds.isEmpty && ds.all Char.isDigit
  | ds => !ds.isEmpty && ds.all Char.isDigit

/-- Counterexample to C4 as stated: the duration `"ab:cd"` splits into two
pieces neither of which is convertible to an integer, yet the row parses
successfully — the code never converts the pieces. -/
theorem c4_counterexample :
    isIntLiteral "ab" = false ∧ isIntLiteral "cd" = false ∧
    parseRow ["Title", "nick", "ab:cd"] = .ok ⟨"Title", "nick", "ab", "cd", none⟩ :=
  ⟨rfl, rfl, rfl⟩

/-- C5: a data row whose duration is digit string `M`, a colon, digit string
`SS` parses to a record with `min = M` and `sec = SS` (digit strings, hence
denoting non-negative integers), and `Demo.time` re-renders exactly those
digits as `M ++ "m" ++ SS ++ "s"`, numerically consistent with the input. -/
theorem c5_duration_roundtrip (t n : String) (ms ss : List Char)
    (_hm : ms ≠ []) (_hs : ss ≠ [])
    (hmd : ∀ ch ∈ ms, ch.isDigit) (hsd : ∀ ch ∈ ss, ch.isDigit) :
    parseRow [t, n, String.mk (ms ++ ':' :: ss)]
        = .ok ⟨t, n, String.mk ms, String.mk ss, none⟩ ∧
    Demo.time ⟨t, n, String.mk ms, String.mk ss, none⟩
        = String.mk ms ++ "m" ++ String.mk ss ++ "s" := by
  have hcm : ':' ∉ ms := fun hcall => by simpa using hmd ':' hcall
  have hcs : ':' ∉ ss := fun hcall => by simpa using hsd ':' hcall
  have hd : (String.mk (ms ++ ':' :: ss)).data = ms ++ ':' :: ss := rfl
  refine ⟨?_, rfl⟩
  simp [parseRow, pySplit, hd, splitChar_append_sep ':' hcm hcs]

/-- Witness for C5 at the duration `"4:32"` from the repository's example
CSV. -/
theorem c5_duration_roundtrip_witness :
    parseRow ["Community Update", "bmbouter", "4:32"]
        = .ok ⟨"Community Update", "bmbouter", "4", "32", none⟩ ∧
    Demo.time ⟨"Community Update", "bmbouter", "4", "32", none⟩ = "4m32s" :=
  c5_duration_roundtrip "Community Update" "bmbouter" ['4'] ['3', '2']
    (by decide) (by decide) (by decide) (by decide)

/-- C7: on a well-formed row list — a first row carrying a `?v=` link and
data rows that all parse — `parse_data` succeeds, yields one record fewer
than the number of rows (the first row only supplies the link), and the
records correspond index by index to the data rows in file order. -/
theorem c7_record_count (rows : List (List String)) (first : List String)
    (dataRows : List (List String)) (link slug : String)
    (hrows : rows = first :: dataRows)
    (hlink : first.head? = some link)
    (hslug : (pySplitStr link "?v=")[1]? = some slug)
    (hok : ∀ r ∈ dataRows, ∃ d, parseRow r = .ok d) :
    ∃ demos, parse_data rows = .ok (slug, demos) ∧
      demos.length + 1 = rows.length ∧
      ∀ (i : Nat) (h1 : i < demos.length) (h2 : i < dataRows.length),
        Except.ok (demos.get ⟨i, h1⟩) = parseRow (dataRows.get ⟨i, h2⟩) := by
  subst hrows
  obtain ⟨demos, hds, hlen, hidx⟩ := parseRows_ok dataRows hok
  refine ⟨demos, ?_, by simp [hlen], hidx⟩
  simp [parse_data, hlink, hds, hslug]

/-- Witness for C7 at a three-row input (one link row, two demo rows). -/
theorem c7_record_count_witness :
    ∃ demos,
      parse_data [["http://u?v=abc"], ["State of Pulp", "mhrivnak", "0:15"],
          ["Community Update", "bmbouter", "4:32", "2.14"]] = .ok ("abc", demos) ∧
      demos.length + 1 = ([["http://u?v=abc"], ["State of Pulp", "mhrivnak", "0:15"],
          ["Community Update", "bmbouter", "4:32", "2.14"]] : List (List String)).length ∧
      ∀ (i : Nat) (h1 : i < demos.length)
        (h2 : i < ([["State of Pulp", "mhrivnak", "0:15"],
            ["Community Update", "bmbouter", "4:32", "2.14"]] : List (List String)).length),
        Except.ok (demos.get ⟨i, h1⟩)
          = parseRow (([["State of Pulp", "mhrivnak", "0:15"],
              ["Community Update", "bmbouter", "4:32", "2.14"]] : List (List String)).get ⟨i, h2⟩) :=
  c7_record_count _ _ _ _ _ rfl rfl rfl (by
    intro r hr
    rcases List.mem_cons.mp hr with rfl | hr2
    · exact ⟨⟨"State of Pulp", "mhrivnak", "0", "15", none⟩, rfl⟩
    · rcases List.mem_cons.mp hr2 with rfl | hr3
      · exact ⟨⟨"Community Update", "bmbouter", "4", "32", some "2.14"⟩, rfl⟩
      · simp at hr3)

theorem string_append_ne_of_second_char_ne (a b x y : String)
    (ha : 1 < a.data.length) (hb : 1 < b.data.length)
    (h : a.data[1]? ≠ b.data[1]?) :
    a ++ x ≠ b ++ y := by
  intro he
  apply h
  have hdata := congrArg String.data he
  rw [String.data_append, String.data_append] at hdata
  have h1 : (a.data ++ x.data)[1]? = a.data[1]? := List.getElem?_append_left ha
  have h2 : (b.data ++ y.data)[1]? = b.data[1]? := List.getElem?_append_left hb
  rw [← h1, ← h2, hdata]

/-- C10: an `--rc`-only run sets `beta_or_stable` to `"beta"` exactly as an
`--beta`-only run does, so every repository path and repository name the
email and blog templates substitute is identical between the two; only the
version-name suffix and the testing wording differ. -/
theorem c10_rc_uses_beta_paths (b r : Int) (xy : String) :
    (releaseLabels none (some r)).beta_or_stable = "beta" ∧
    (releaseLabels none (some r)).beta_or_stable
      = (releaseLabels (some b) none).beta_or_stable ∧
    emailRepoPath (releaseLabels none (some r)) xy
      = emailRepoPath (releaseLabels (some b) none) xy ∧
    emailRepoName (releaseLabels none (some r))
      = emailRepoName (releaseLabels (some b) none) ∧
    blogRepoPath2 (releaseLabels none (some r))
      = blogRepoPath2 (releaseLabels (some b) none) ∧
    blogRepoPathLatest (releaseLabels none (some r))
      = blogRepoPathLatest (releaseLabels (some b) none) ∧
    blogRepoName2 (releaseLabels none (some r))
      = blogRepoName2 (releaseLabels (some b) none) ∧
    (releaseLabels none (some r)).beta_name_number
      ≠ (releaseLabels (some b) none).beta_name_number ∧
    (releaseLabels none (some r)).upgrade_or_test
      ≠ (releaseLabels (some b) none).upgrade_or_test := by
  refine ⟨rfl, rfl, rfl, rfl, rfl, rfl, rfl, ?_, ?_⟩
  · show " Release Candidate " ++ toString r ≠ " Beta " ++ toString b
    exact string_append_ne_of_second_char_ne _ _ _ _ (by decide) (by decide) (by decide)
  · show ("Release Candidate testing" : String) ≠ "Beta testing"
    decide

end PulpDemos
